import Mathlib

/-!
Shallow embedding of django-side-effects (src/side_effects/registry.py and
src/side_effects/decorators.py), with theorems settling the frozen claims.

Python values are modelled by the inductive `Val`; Python callables by
`PyFunc`, which carries an object identity (`id`), the `__module__` and
`__name__` attributes, the declared parameter list (used by
`inspect.signature(func).bind`), and a behaviour flag `raises` saying whether
invoking the callable raises a generic `Exception`.

The global state touched by the registry module (the `_registry` defaultdict,
the `_suppress` flag, the receivers connected to the `suppressed_side_effect`
signal and the per-context-manager `events` lists) is collected in `World`.
Dispatch returns the new world, a trace of observable events (consumer
invocations, `logger.exception` calls, suppressed-signal sends) and an
optional raised exception.
-/

namespace SideEffects

/-- Python argument / return values, as far as the claims need them:
ints, strings, None, and `django.http.HttpResponse` objects carrying a
`status_code`. -/
inductive Val where
  | vint : Int → Val
  | vstr : String → Val
  | vnone : Val
  | vhttp : Int → Val
  deriving DecidableEq, Repr

/-- Kinds of Python function parameters relevant to the embedded functions
(the source never declares positional-only parameters, so that kind is
omitted). -/
inductive ParamKind where
  | posOrKw : ParamKind
  | varPos : ParamKind
  | kwOnly : ParamKind
  | varKw : ParamKind
  deriving DecidableEq, Repr, BEq

/-- One declared parameter of a Python function. -/
structure Param where
  name : String
  kind : ParamKind
  hasDefault : Bool
  deriving DecidableEq, Repr, BEq

/-- A Python function object: `id` is the CPython object identity (function
equality, as used by the `in` operator on lists of plain functions, is
identity), `module` and `name` are `__module__` and `__name__`, `params` is
the declared signature, and `raises` says whether calling the function raises
a generic `Exception`. -/
structure PyFunc where
  id : Nat
  module : String
  name : String
  params : List Param
  raises : Bool
  deriving DecidableEq, Repr

/-- Embedding of `registry.fname`: the fully-qualified function name,
`"%s.%s" % (func.__module__, func.__name__)`. -/
def fname (f : PyFunc) : String := f.module ++ "." ++ f.name

/-- Parameters fillable by position (POSITIONAL_OR_KEYWORD). -/
def posParams (ps : List Param) : List Param :=
  ps.filter (fun p => p.kind == ParamKind.posOrKw)

/-- Whether the signature declares a `*args` parameter. -/
def hasVarPos (ps : List Param) : Bool :=
  ps.any (fun p => p.kind == ParamKind.varPos)

/-- Whether the signature declares a `**kwargs` parameter. -/
def hasVarKw (ps : List Param) : Bool :=
  ps.any (fun p => p.kind == ParamKind.varKw)

/-- Embedding of `inspect.signature(func).bind(*args, **kwargs)` restricted
to a success test (the source only uses bind success or its `TypeError`):
positional arguments fill the positional-or-keyword parameters in order,
overflow goes to `*args` if declared; keyword arguments must name an
unfilled positional-or-keyword or keyword-only parameter, or be absorbed by
`**kwargs`; a parameter filled both ways is an error; at the end every
parameter without a default (and not variadic) must be filled. -/
def bindOk (ps : List Param) (args : List Val) (kwargs : List (String × Val)) : Bool :=
  let pos := posParams ps
  if args.length > pos.length && !hasVarPos ps then false
  else
    let filledPos := (pos.take args.length).map Param.name
    if kwargs.any (fun kv => filledPos.contains kv.1) then false
    else
      let kwNames := kwargs.map Prod.fst
      let bindableByKw := fun (p : Param) =>
        p.kind == ParamKind.posOrKw || p.kind == ParamKind.kwOnly
      if kwargs.any (fun kv =>
          !(ps.any (fun p => bindableByKw p && !filledPos.contains p.name
              && p.name == kv.1))
          && !hasVarKw ps) then false
      else
        !(ps.any (fun p => bindableByKw p && !p.hasDefault
            && !filledPos.contains p.name && !kwNames.contains p.name))

/-- Embedding of `registry.try_bind`: `True` iff binding the arguments to
the function signature does not raise `TypeError`. -/
def try_bind (f : PyFunc) (args : List Val) (kwargs : List (String × Val)) : Bool :=
  bindOk f.params args kwargs

/-- Read-only snapshot of the `side_effects.settings` module values used by
the registry. -/
structure Settings where
  ABORT_ON_ERROR : Bool
  TEST_MODE : Bool
  TEST_MODE_FAIL : Bool
  deriving DecidableEq, Repr

/-- Exceptions the registry module can raise: `SignatureMismatch(func)`,
`SideEffectsTestFailure(label)`, or a generic exception propagated out of a
consumer. -/
inductive Err where
  | signatureMismatch : PyFunc → Err
  | testFailure : String → Err
  | consumerError : PyFunc → Err
  deriving DecidableEq, Repr

/-- Observable events of a dispatch: a consumer invocation with its exact
positional and keyword arguments, a `logger.exception` record carrying the
consumer's qualified name, or a send of the `suppressed_side_effect` signal
carrying the label. -/
inductive Event where
  | call : PyFunc → List Val → List (String × Val) → Event
  | logError : String → Event
  | notify : String → Event
  deriving DecidableEq, Repr

/-- The `Registry` mapping (a `defaultdict(list)`): insertion-ordered
association list from label to the list of registered consumers. -/
abbrev RegistryMap := List (String × List PyFunc)

/-- Whether a label is a key of the mapping. -/
def hasKey (r : RegistryMap) (label : String) : Bool :=
  r.any (fun kv => kv.1 == label)

/-- The consumer list stored for a label (empty when the key is absent);
this is the read-only observation, without the defaultdict side effect. -/
def lookupKey (r : RegistryMap) (label : String) : List PyFunc :=
  ((r.find? (fun kv => kv.1 == label)).map Prod.snd).getD []

/-- Embedding of `defaultdict.__getitem__`: returns the stored list and the
mapping after the access — a missing key is inserted with a fresh empty
list (Python dicts append new keys in insertion order). -/
def getItem (r : RegistryMap) (label : String) : List PyFunc × RegistryMap :=
  if hasKey r label then (lookupKey r label, r)
  else ([], r ++ [(label, [])])

/-- In-place replacement of the list stored for a key (models mutating the
list object held in the dict, e.g. `self[label].append(func)`). -/
def setItem (r : RegistryMap) (label : String) (fs : List PyFunc) : RegistryMap :=
  r.map (fun kv => if kv.1 == label then (kv.1, fs) else kv)

/-- Embedding of `Registry.add`: `self[label].append(func)` under the lock
(single-threaded model, so the lock is a no-op). -/
def Registry.add (r : RegistryMap) (label : String) (func : PyFunc) : RegistryMap :=
  setItem (getItem r label).2 label ((getItem r label).1 ++ [func])

/-- Python list membership for function objects (`func in self[label]`):
plain functions compare by object identity. -/
def memById (fs : List PyFunc) (func : PyFunc) : Bool :=
  fs.any (fun g => g.id == func.id)

/-- Embedding of `register_side_effect`: no-op when `func in _registry[label]`
(identity comparison), otherwise `_registry.add(label, func)`; note that the
membership test itself is a defaultdict access and may insert the key. -/
def registerSideEffect (r : RegistryMap) (label : String) (func : PyFunc) : RegistryMap :=
  if memById (getItem r label).1 func then (getItem r label).2
  else Registry.add (getItem r label).2 label func

/-- Embedding of `Registry.contains`: `fname(func) in [fname(f) for f in
self[label]]`; the access inserts a missing key, so the updated mapping is
returned alongside the boolean. -/
def Registry.contains (r : RegistryMap) (label : String) (func : PyFunc) :
    Bool × RegistryMap :=
  (((getItem r label).1.map fname).contains (fname func), (getItem r label).2)

/-- Embedding of `Registry.by_label`: filter the mapping by exact label. -/
def byLabel (r : RegistryMap) (value : String) : RegistryMap :=
  r.filter (fun kv => kv.1 == value)

/-- A Django signal lookup key: `Signal.connect` stores a receiver under
`(dispatch_uid, sender_id)` when a `dispatch_uid` is given, and under
`(_make_id(receiver), sender_id)` otherwise; the sender is always `None`
here, so the key reduces to either the uid string or the receiver's object
id. -/
inductive LookupKey where
  | uid : String → LookupKey
  | rid : Nat → LookupKey
  deriving DecidableEq, Repr, BEq

/-- The global state the registry module manipulates: the `_registry`
mapping, the `_suppress` flag, the receivers connected to the
`suppressed_side_effect` signal (pairs of the stored lookup key and the
owning context-manager instance id, the receiver being that instance's
bound `on_event` method) and each context-manager instance's `events`
list. -/
structure World where
  registry : RegistryMap
  suppress : Bool
  listeners : List (LookupKey × Nat)
  cmEvents : List (Nat × List String)
  deriving DecidableEq, Repr

/-- The `events` list of a `disable_side_effects` instance. -/
def eventsOf (w : World) (cmId : Nat) : List String :=
  ((w.cmEvents.find? (fun p => p.1 == cmId)).map Prod.snd).getD []

/-- Embedding of `suppressed_side_effect.send(Registry, label=label)`: every
connected receiver is `disable_side_effects.on_event`, which appends the
label to its instance's `events` list. -/
def sendSuppressed (w : World) (label : String) : World :=
  { w with cmEvents := w.cmEvents.map (fun p =>
      if w.listeners.any (fun l => l.2 == p.1) then (p.1, p.2 ++ [label]) else p) }

/-- Embedding of `Signal.connect(receiver, dispatch_uid=uid)`: the receiver
is stored under the lookup key `(uid, None)`; a no-op when an entry with the
same lookup key is already connected, otherwise the entry is appended. -/
def signalConnect (w : World) (uid : String) (cmId : Nat) : World :=
  if w.listeners.any (fun l => l.1 == LookupKey.uid uid) then w
  else { w with listeners := w.listeners ++ [(LookupKey.uid uid, cmId)] }

/-- Embedding of `Signal.disconnect(receiver)` as `__exit__` calls it — with
no `dispatch_uid` argument: Django derives the lookup key from the receiver
(`(_make_id(receiver), None)`) and removes only an entry stored under that
exact key; an entry connected under a `dispatch_uid` has a uid key, which
never equals a receiver-derived key, so it is not removed. -/
def signalDisconnect (w : World) (cmId : Nat) : World :=
  { w with listeners :=
      w.listeners.filter (fun l => !(l.1 == LookupKey.rid cmId)) }

/-- Invocation of a consumer inside `_run_func` after a successful bind: the
call event is recorded; if the consumer raises, the exception is logged
(`logger.exception` with `fname(func)`) and re-raised only when
`settings.ABORT_ON_ERROR or settings.TEST_MODE_FAIL`. -/
def invokeFunc (cfg : Settings) (f : PyFunc) (args : List Val)
    (kwargs : List (String × Val)) : List Event × Option Err :=
  if f.raises then
    ([Event.call f args kwargs, Event.logError (fname f)],
     if cfg.ABORT_ON_ERROR || cfg.TEST_MODE_FAIL then some (Err.consumerError f)
     else none)
  else ([Event.call f args kwargs], none)

/-- Embedding of `_run_func`: first try to bind with `return_value` as a
keyword (it is always passed, defaulting to `None`); if that binds, call
`func(*args, return_value=return_value, **kwargs)`; otherwise try without it
and call `func(*args, **kwargs)`; if neither binds, raise
`SignatureMismatch(func)` (which is always re-raised). -/
def runFunc (cfg : Settings) (f : PyFunc) (args : List Val) (rv : Val)
    (kwargs : List (String × Val)) : List Event × Option Err :=
  if try_bind f args (("return_value", rv) :: kwargs) then
    invokeFunc cfg f args (("return_value", rv) :: kwargs)
  else if try_bind f args kwargs then
    invokeFunc cfg f args kwargs
  else ([], some (Err.signatureMismatch f))

/-- The `for func in self[label]` loop of `Registry._run_side_effects`:
consumers run in registration order; a raised exception aborts the loop and
propagates. -/
def runFuncs (cfg : Settings) (fs : List PyFunc) (args : List Val) (rv : Val)
    (kwargs : List (String × Val)) : List Event × Option Err :=
  match fs with
  | [] => ([], none)
  | f :: rest =>
    match (runFunc cfg f args rv kwargs).2 with
    | some e => ((runFunc cfg f args rv kwargs).1, some e)
    | none =>
      ((runFunc cfg f args rv kwargs).1 ++ (runFuncs cfg rest args rv kwargs).1,
       (runFuncs cfg rest args rv kwargs).2)

/-- Embedding of `Registry._run_side_effects`: raise
`SideEffectsTestFailure(label)` when `TEST_MODE_FAIL` is set (before touching
any consumer), otherwise run the loop. -/
def runSideEffectsBody (cfg : Settings) (label : String) (fs : List PyFunc)
    (args : List Val) (rv : Val) (kwargs : List (String × Val)) :
    List Event × Option Err :=
  if cfg.TEST_MODE_FAIL then ([], some (Err.testFailure label))
  else runFuncs cfg fs args rv kwargs

/-- Embedding of `Registry.try_bind_all`: the first consumer for which
neither the bind with `return_value` nor the bind without it succeeds, if
any — the loop raises `SignatureMismatch` on that consumer. -/
def tryBindAll (fs : List PyFunc) (args : List Val) (rv : Val)
    (kwargs : List (String × Val)) : Option PyFunc :=
  fs.find? (fun f =>
    !(try_bind f args (("return_value", rv) :: kwargs) || try_bind f args kwargs))

/-- Result of one call to `Registry.run_side_effects`: the updated global
state, the event trace, and the raised exception if any. -/
structure DispatchOut where
  world : World
  trace : List Event
  err : Option Err
  deriving DecidableEq, Repr

/-- Embedding of `Registry.run_side_effects`: validate all bindings first
(`try_bind_all`, whose defaultdict access inserts a missing label key); then,
when `self._suppress or settings.TEST_MODE`, send the suppressed signal
instead of running anything; otherwise run `_run_side_effects`. -/
def runSideEffects (cfg : Settings) (w : World) (label : String)
    (args : List Val) (rv : Val) (kwargs : List (String × Val)) : DispatchOut :=
  let fs := (getItem w.registry label).1
  let w1 : World := { w with registry := (getItem w.registry label).2 }
  match tryBindAll fs args rv kwargs with
  | some f => ⟨w1, [], some (Err.signatureMismatch f)⟩
  | none =>
    if w.suppress || cfg.TEST_MODE then
      ⟨sendSuppressed w1 label, [Event.notify label], none⟩
    else
      ⟨w1, (runSideEffectsBody cfg label fs args rv kwargs).1,
       (runSideEffectsBody cfg label fs args rv kwargs).2⟩

/-- Embedding of `decorators.http_response_check`: `True` for anything other
than an `HttpResponse` with a 4xx or 5xx status code. -/
def http_response_check (response : Val) : Bool :=
  match response with
  | Val.vhttp status => !(400 ≤ status && status < 600)
  | _ => true

/-- Embedding of the `inner_func` closure produced by
`decorators.has_side_effects(label, run_on_exit)`: run the wrapped function,
and if `run_on_exit(return_value)` is truthy, call
`registry.run_side_effects(label, *args, return_value=return_value,
**kwargs)`; the original return value is returned (unless the dispatch
raised, in which case the exception propagates). -/
def hasSideEffectsInner (cfg : Settings) (w : World) (label : String)
    (runOnExit : Val → Bool) (producer : List Val → List (String × Val) → Val)
    (args : List Val) (kwargs : List (String × Val)) :
    World × List Event × Except Err Val :=
  let rv := producer args kwargs
  if runOnExit rv then
    let d := runSideEffects cfg w label args rv kwargs
    (d.world, d.trace,
     match d.err with
     | some e => Except.error e
     | none => Except.ok rv)
  else (w, [], Except.ok rv)

/-- Embedding of `disable_side_effects.__init__` plus `__enter__`: a fresh
instance gets an empty `events` list; entering connects `on_event` to the
suppressed signal under `dispatch_uid="suppress"` and sets `_suppress`. -/
def cmEnter (w : World) (cmId : Nat) : World :=
  let w0 : World :=
    { w with cmEvents :=
        if w.cmEvents.any (fun p => p.1 == cmId) then w.cmEvents
        else w.cmEvents ++ [(cmId, [])] }
  let w1 := signalConnect w0 "suppress" cmId
  { w1 with suppress := true }

/-- Embedding of `disable_side_effects.__exit__`: clear `_suppress` and
disconnect the instance's `on_event` receiver. -/
def cmExit (w : World) (cmId : Nat) : World :=
  signalDisconnect { w with suppress := false } cmId

/-- The `with disable_side_effects() as events:` statement: enter, run the
body (which may end in a raised exception), and always run `__exit__`; the
yielded `events` list is the instance's list as left after exit. -/
def withDisableSideEffects (w : World) (cmId : Nat)
    (body : World → World × List Event × Option Err) :
    World × List String × List Event × Option Err :=
  let w1 := cmEnter w cmId
  let w3 := cmExit (body w1).1 cmId
  (w3, eventsOf w3 cmId, (body w1).2.1, (body w1).2.2)

/-- The body of the C7 scenario: two consecutive calls to
`run_side_effects(label)` with no arguments, as a `with`-statement body —
returns the final world, the concatenated traces, and the second call's
outcome (the first call's outcome is None on the suppressed path). -/
def dispatchTwice (cfg : Settings) (label : String) (w1 : World) :
    World × List Event × Option Err :=
  ((runSideEffects cfg (runSideEffects cfg w1 label [] Val.vnone []).world label
      [] Val.vnone []).world,
   (runSideEffects cfg w1 label [] Val.vnone []).trace ++
     (runSideEffects cfg (runSideEffects cfg w1 label [] Val.vnone []).world
       label [] Val.vnone []).trace,
   (runSideEffects cfg (runSideEffects cfg w1 label [] Val.vnone []).world label
      [] Val.vnone []).err)

/-- Whether one of the two bind passes of `_run_func` / `try_bind_all`
succeeds for a consumer: first with `return_value` as a keyword, then
without it. -/
def bindsEither (f : PyFunc) (args : List Val) (rv : Val)
    (kwargs : List (String × Val)) : Bool :=
  try_bind f args (("return_value", rv) :: kwargs) || try_bind f args kwargs

/-- Modelled from the spec: a dispatch closure handed to the unit-of-work
commit-hook mechanism — label, positional arguments, return value and
keyword arguments of the deferred `run_side_effects` call. The on-commit
integration itself (the transaction-aware variant of `has_side_effects` /
`run_side_effects_on_commit`) is not present under src/side_effects; only
its tests are, so it is modelled from spec sections 4.3 and 6. -/
structure Deferred where
  label : String
  args : List Val
  rv : Val
  kwargs : List (String × Val)
  deriving DecidableEq, Repr

/-- Modelled from the spec: the enclosing unit-of-work — whether a
transaction is active, and the pending dispatch closures registered with its
commit hook, in registration order. -/
structure TxState where
  active : Bool
  pending : List Deferred
  deriving DecidableEq, Repr

/-- Modelled from the spec: hand a dispatch closure to the commit-hook
primitive — registered as pending while a unit-of-work is active, executed
immediately otherwise. -/
def runSideEffectsOnCommit (cfg : Settings) (w : World) (tx : TxState)
    (d : Deferred) : World × TxState × List Event × Option Err :=
  if tx.active then (w, { tx with pending := tx.pending ++ [d] }, [], none)
  else
    let o := runSideEffects cfg w d.label d.args d.rv d.kwargs
    (o.world, tx, o.trace, o.err)

/-- Modelled from the spec: on commit, the hook mechanism flushes the pending
dispatches in registration order; a raised exception stops the flush and
propagates. -/
def flushPending (cfg : Settings) (w : World) (ds : List Deferred) :
    World × List Event × Option Err :=
  match ds with
  | [] => (w, [], none)
  | d :: rest =>
    let o := runSideEffects cfg w d.label d.args d.rv d.kwargs
    match o.err with
    | some e => (o.world, o.trace, some e)
    | none =>
      ((flushPending cfg o.world rest).1,
       o.trace ++ (flushPending cfg o.world rest).2.1,
       (flushPending cfg o.world rest).2.2)

/-- Modelled from the spec: committing the unit-of-work runs the pending
dispatches and leaves no unit-of-work active. -/
def commitTx (cfg : Settings) (w : World) (tx : TxState) :
    World × TxState × List Event × Option Err :=
  ((flushPending cfg w tx.pending).1, ⟨false, []⟩,
   (flushPending cfg w tx.pending).2.1, (flushPending cfg w tx.pending).2.2)

/-- Modelled from the spec: rolling the unit-of-work back discards the
pending dispatches; nothing runs and no exception is raised. -/
def rollbackTx (_tx : TxState) : TxState × List Event × Option Err :=
  (⟨false, []⟩, [], none)

/-- Modelled from the spec: the transaction-aware producer wrapper — run the
wrapped function, and when the run-on-exit predicate accepts the result,
hand the dispatch to the commit-hook primitive instead of invoking it
inline; the original result is returned. -/
def hasSideEffectsTx (cfg : Settings) (w : World) (tx : TxState) (label : String)
    (runOnExit : Val → Bool) (producer : List Val → List (String × Val) → Val)
    (args : List Val) (kwargs : List (String × Val)) :
    World × TxState × List Event × Except Err Val :=
  let rv := producer args kwargs
  if runOnExit rv then
    let o := runSideEffectsOnCommit cfg w tx ⟨label, args, rv, kwargs⟩
    (o.1, o.2.1, o.2.2.1,
     match o.2.2.2 with
     | some e => Except.error e
     | none => Except.ok rv)
  else (w, tx, [], Except.ok rv)

/-! Helper lemmas about the association-list registry. -/

theorem find?_eq_none_of_hasKey_false {r : RegistryMap} {label : String}
    (h : hasKey r label = false) :
    r.find? (fun kv => kv.1 == label) = none := by
  rw [List.find?_eq_none]
  intro kv hkv hbeq
  have : hasKey r label = true := by
    unfold hasKey
    exact List.any_eq_true.mpr ⟨kv, hkv, hbeq⟩
  rw [this] at h
  exact Bool.true_eq_false.mp h

theorem lookupKey_of_hasKey_false {r : RegistryMap} {label : String}
    (h : hasKey r label = false) : lookupKey r label = [] := by
  unfold lookupKey
  rw [find?_eq_none_of_hasKey_false h]
  rfl

theorem getItem_fst (r : RegistryMap) (label : String) :
    (getItem r label).1 = lookupKey r label := by
  unfold getItem
  by_cases h : hasKey r label = true
  · simp [h]
  · have h0 : hasKey r label = false := by simpa using h
    simp [h0, lookupKey_of_hasKey_false h0]

theorem lookupKey_append_empty (r : RegistryMap) (label l : String) :
    lookupKey (r ++ [(label, [])]) l = lookupKey r l := by
  induction r with
  | nil =>
    unfold lookupKey
    by_cases h : (label == l)
    · simp [List.find?, h]
    · simp [List.find?, h]
  | cons kv rest ih =>
    unfold lookupKey at ih ⊢
    by_cases h : (kv.1 == l)
    · simp [List.find?_cons, h]
    · simpa [List.find?_cons, h] using ih

theorem lookupKey_getItem_snd (r : RegistryMap) (label l : String) :
    lookupKey (getItem r label).2 l = lookupKey r l := by
  unfold getItem
  by_cases h : hasKey r label = true
  · simp [h]
  · have h0 : hasKey r label = false := by simpa using h
    simp [h0, lookupKey_append_empty]

theorem hasKey_getItem_snd (r : RegistryMap) (label : String) :
    hasKey (getItem r label).2 label = true := by
  unfold getItem
  by_cases h : hasKey r label = true
  · simp [h]
  · have h0 : hasKey r label = false := by simpa using h
    rw [if_neg (by simp [h0])]
    unfold hasKey
    rw [List.any_append]
    simp

theorem getItem_of_hasKey {r : RegistryMap} {label : String}
    (h : hasKey r label = true) : getItem r label = (lookupKey r label, r) := by
  unfold getItem
  simp [h]

theorem hasKey_setItem (r : RegistryMap) (label : String) (fs : List PyFunc)
    (l : String) : hasKey (setItem r label fs) l = hasKey r l := by
  induction r with
  | nil => rfl
  | cons kv rest ih =>
    unfold hasKey setItem at ih ⊢
    simp only [List.map_cons, List.any_cons]
    by_cases hkv : (kv.1 == label) = true
    · rw [if_pos hkv, ih]
    · rw [if_neg hkv, ih]

theorem lookupKey_setItem_self {r : RegistryMap} {label : String}
    (fs : List PyFunc) (h : hasKey r label = true) :
    lookupKey (setItem r label fs) label = fs := by
  induction r with
  | nil => simp [hasKey] at h
  | cons kv rest ih =>
    unfold lookupKey setItem at ih ⊢
    simp only [List.map_cons]
    by_cases hkv : (kv.1 == label) = true
    · rw [if_pos hkv]
      rw [List.find?_cons_of_pos _ (by simpa using hkv)]
      rfl
    · have h0 : hasKey rest label = true := by
        have := h
        unfold hasKey at this
        rw [List.any_cons] at this
        rcases Bool.or_eq_true_iff.mp this with h1 | h1
        · exact absurd h1 hkv
        · exact h1
      rw [if_neg hkv]
      rw [List.find?_cons_of_neg _ (by simpa using hkv)]
      exact ih h0

theorem lookupKey_registerSideEffect (r : RegistryMap) (label : String)
    (f : PyFunc) :
    lookupKey (registerSideEffect r label f) label =
      if memById (lookupKey r label) f then lookupKey r label
      else lookupKey r label ++ [f] := by
  unfold registerSideEffect Registry.add
  rw [getItem_fst]
  by_cases h : memById (lookupKey r label) f
  · simp [h, lookupKey_getItem_snd]
  · simp [h]
    rw [getItem_of_hasKey (hasKey_getItem_snd r label)]
    simp
    rw [lookupKey_setItem_self _ (hasKey_getItem_snd r label)]
    rw [lookupKey_getItem_snd]

theorem hasKey_registerSideEffect (r : RegistryMap) (label : String)
    (f : PyFunc) : hasKey (registerSideEffect r label f) label = true := by
  unfold registerSideEffect Registry.add
  by_cases h : memById (getItem r label).1 f
  · simp [h, hasKey_getItem_snd]
  · simp [h]
    rw [getItem_of_hasKey (hasKey_getItem_snd r label)]
    simp
    rw [hasKey_setItem]
    exact hasKey_getItem_snd r label

/-! Helper lemmas about signal delivery and dispatch. -/

theorem find?_map_append_label (conn : Nat → Bool) (label : String) (cmId : Nat)
    (l : List (Nat × List String)) (hconn : conn cmId = true)
    (hmem : (l.any (fun p => p.1 == cmId)) = true) :
    (((l.map (fun p => if conn p.1 then (p.1, p.2 ++ [label]) else p)).find?
        (fun p => p.1 == cmId)).map Prod.snd).getD [] =
      (((l.find? (fun p => p.1 == cmId)).map Prod.snd).getD []) ++ [label] := by
  induction l with
  | nil => cases hmem
  | cons p rest ih =>
    rw [List.any_cons] at hmem
    simp only [List.map_cons]
    by_cases hp : (p.1 == cmId) = true
    · have hpe : p.1 = cmId := by simpa using hp
      have hcp : conn p.1 = true := by rw [hpe]; exact hconn
      rw [if_pos hcp]
      rw [List.find?_cons_of_pos _ (by simpa using hp)]
      rw [List.find?_cons_of_pos _ (by simpa using hp)]
      simp
    · have hrest : (rest.any (fun p => p.1 == cmId)) = true := by
        rcases Bool.or_eq_true_iff.mp hmem with h | h
        · exact absurd h hp
        · exact h
      rw [List.find?_cons_of_neg _
        (by by_cases hc : conn p.1 = true <;> simp [hc, hp])]
      rw [List.find?_cons_of_neg _ (by simpa using hp)]
      exact ih hrest

theorem eventsOf_sendSuppressed (w : World) (label : String) (cmId : Nat)
    (hconn : (w.listeners.any (fun l => l.2 == cmId)) = true)
    (hmem : (w.cmEvents.any (fun p => p.1 == cmId)) = true) :
    eventsOf (sendSuppressed w label) cmId = eventsOf w cmId ++ [label] := by
  unfold eventsOf sendSuppressed
  exact find?_map_append_label (fun i => w.listeners.any (fun l => l.2 == i))
    label cmId w.cmEvents hconn hmem

theorem tryBindAll_eq_none_iff (fs : List PyFunc) (args : List Val) (rv : Val)
    (kwargs : List (String × Val)) :
    tryBindAll fs args rv kwargs = none ↔
      ∀ f ∈ fs, bindsEither f args rv kwargs = true := by
  unfold tryBindAll
  rw [List.find?_eq_none]
  unfold bindsEither
  constructor
  · intro h f hf
    have h2 := h f hf
    by_contra hne
    apply h2
    have hfalse : (try_bind f args (("return_value", rv) :: kwargs)
        || try_bind f args kwargs) = false := by
      simpa using hne
    show (!(try_bind f args (("return_value", rv) :: kwargs)
        || try_bind f args kwargs)) = true
    rw [hfalse]
    rfl
  · intro h f hf
    have h2 := h f hf
    simp [h2]

theorem tryBindAll_some_of_failing (fs : List PyFunc) (args : List Val) (rv : Val)
    (kwargs : List (String × Val))
    (hex : ∃ f ∈ fs, bindsEither f args rv kwargs = false) :
    ∃ g, tryBindAll fs args rv kwargs = some g ∧ g ∈ fs ∧
      bindsEither g args rv kwargs = false := by
  have hne : ¬(tryBindAll fs args rv kwargs = none) := by
    rw [tryBindAll_eq_none_iff]
    rcases hex with ⟨f, hf, hb⟩
    intro hall
    rw [hall f hf] at hb
    cases hb
  cases h : tryBindAll fs args rv kwargs with
  | none => exact absurd h hne
  | some g =>
    refine ⟨g, rfl, List.mem_of_find?_eq_some h, ?_⟩
    have h2 := List.find?_some h
    unfold bindsEither
    simpa using h2

theorem runFunc_of_raises_false (cfg : Settings) (f : PyFunc) (args : List Val)
    (rv : Val) (kwargs : List (String × Val)) (hr : f.raises = false)
    (hb : bindsEither f args rv kwargs = true) :
    runFunc cfg f args rv kwargs =
      ([if try_bind f args (("return_value", rv) :: kwargs)
        then Event.call f args (("return_value", rv) :: kwargs)
        else Event.call f args kwargs], none) := by
  unfold runFunc invokeFunc
  by_cases h1 : try_bind f args (("return_value", rv) :: kwargs) = true
  · simp [h1, hr]
  · have h2 : try_bind f args kwargs = true := by
      unfold bindsEither at hb
      rcases Bool.or_eq_true_iff.mp hb with h | h
      · exact absurd h h1
      · exact h
    simp [h1, h2, hr]

theorem runFunc_bound (cfg : Settings) (f : PyFunc) (args : List Val) (rv : Val)
    (kwargs : List (String × Val)) (hb : bindsEither f args rv kwargs = true) :
    ∃ kw, (kw = ("return_value", rv) :: kwargs ∨ kw = kwargs) ∧
      runFunc cfg f args rv kwargs =
        (Event.call f args kw ::
           (if f.raises then [Event.logError (fname f)] else []),
         if f.raises && (cfg.ABORT_ON_ERROR || cfg.TEST_MODE_FAIL)
         then some (Err.consumerError f) else none) := by
  unfold runFunc invokeFunc
  by_cases h1 : try_bind f args (("return_value", rv) :: kwargs) = true
  · refine ⟨("return_value", rv) :: kwargs, Or.inl rfl, ?_⟩
    rw [if_pos h1]
    cases hr : f.raises <;> simp [hr]
  · have h2 : try_bind f args kwargs = true := by
      unfold bindsEither at hb
      rcases Bool.or_eq_true_iff.mp hb with h | h
      · exact absurd h h1
      · exact h
    refine ⟨kwargs, Or.inr rfl, ?_⟩
    rw [if_neg h1, if_pos h2]
    cases hr : f.raises <;> simp [hr]

theorem runFuncs_ok (cfg : Settings) (fs : List PyFunc) (args : List Val)
    (rv : Val) (kwargs : List (String × Val))
    (hb : ∀ f ∈ fs, bindsEither f args rv kwargs = true)
    (hr : ∀ f ∈ fs, f.raises = false) :
    runFuncs cfg fs args rv kwargs =
      (fs.map (fun f =>
        if try_bind f args (("return_value", rv) :: kwargs)
        then Event.call f args (("return_value", rv) :: kwargs)
        else Event.call f args kwargs), none) := by
  induction fs with
  | nil => rfl
  | cons f rest ih =>
    have hhd := runFunc_of_raises_false cfg f args rv kwargs
      (hr f (List.mem_cons_self f rest)) (hb f (List.mem_cons_self f rest))
    have itl := ih (fun g hg => hb g (List.mem_cons_of_mem f hg))
      (fun g hg => hr g (List.mem_cons_of_mem f hg))
    simp [runFuncs, hhd, itl]

theorem runFuncs_no_abort (cfg : Settings) (fs : List PyFunc) (args : List Val)
    (rv : Val) (kwargs : List (String × Val))
    (ha : cfg.ABORT_ON_ERROR = false) (htmf : cfg.TEST_MODE_FAIL = false)
    (hb : ∀ f ∈ fs, bindsEither f args rv kwargs = true) :
    (runFuncs cfg fs args rv kwargs).2 = none ∧
    ∀ f ∈ fs, (∃ kw, Event.call f args kw ∈ (runFuncs cfg fs args rv kwargs).1) ∧
      (f.raises = true →
        Event.logError (fname f) ∈ (runFuncs cfg fs args rv kwargs).1) := by
  induction fs with
  | nil => exact ⟨rfl, by intro f hf; cases hf⟩
  | cons f rest ih =>
    obtain ⟨kw, _, heq⟩ := runFunc_bound cfg f args rv kwargs
      (hb f (List.mem_cons_self f rest))
    obtain ⟨itl1, itl2⟩ := ih (fun g hg => hb g (List.mem_cons_of_mem f hg))
    have herrnone : (if f.raises && (cfg.ABORT_ON_ERROR || cfg.TEST_MODE_FAIL)
        then some (Err.consumerError f) else none) = (none : Option Err) := by
      rw [ha, htmf]
      simp
    rw [herrnone] at heq
    have hrfs : runFuncs cfg (f :: rest) args rv kwargs =
        (Event.call f args kw ::
          ((if f.raises = true then [Event.logError (fname f)] else []) ++
            (runFuncs cfg rest args rv kwargs).1),
         (runFuncs cfg rest args rv kwargs).2) := by
      simp [runFuncs, heq]
    rw [hrfs]
    constructor
    · exact itl1
    · intro g hg
      rcases List.mem_cons.mp hg with hgf | hgr
      · subst hgf
        constructor
        · exact ⟨kw, List.mem_cons_self _ _⟩
        · intro hraise
          apply List.mem_cons_of_mem
          apply List.mem_append_left
          rw [hraise]
          simp
      · obtain ⟨⟨kw2, hkw2⟩, hlog2⟩ := itl2 g hgr
        constructor
        · exact ⟨kw2, List.mem_cons_of_mem _ (List.mem_append_right _ hkw2)⟩
        · intro hraise
          exact List.mem_cons_of_mem _ (List.mem_append_right _ (hlog2 hraise))

theorem runFuncs_abort (cfg : Settings) (fs : List PyFunc) (args : List Val)
    (rv : Val) (kwargs : List (String × Val))
    (ha : cfg.ABORT_ON_ERROR = true)
    (hb : ∀ f ∈ fs, bindsEither f args rv kwargs = true)
    (hex : ∃ f ∈ fs, f.raises = true) :
    ∃ f ∈ fs, f.raises = true ∧
      (runFuncs cfg fs args rv kwargs).2 = some (Err.consumerError f) ∧
      Event.logError (fname f) ∈ (runFuncs cfg fs args rv kwargs).1 := by
  induction fs with
  | nil => rcases hex with ⟨f, hf, _⟩; cases hf
  | cons f rest ih =>
    obtain ⟨kw, _, heq⟩ := runFunc_bound cfg f args rv kwargs
      (hb f (List.mem_cons_self f rest))
    cases hr : f.raises
    · have herrnone : (if f.raises && (cfg.ABORT_ON_ERROR || cfg.TEST_MODE_FAIL)
          then some (Err.consumerError f) else none) = (none : Option Err) := by
        rw [hr]
        simp
      rw [herrnone] at heq
      have hrfs : runFuncs cfg (f :: rest) args rv kwargs =
          (Event.call f args kw ::
            ((if f.raises = true then [Event.logError (fname f)] else []) ++
              (runFuncs cfg rest args rv kwargs).1),
           (runFuncs cfg rest args rv kwargs).2) := by
        simp [runFuncs, heq]
      have hexr : ∃ g ∈ rest, g.raises = true := by
        rcases hex with ⟨g, hg, hgr⟩
        rcases List.mem_cons.mp hg with hgf | hgrest
        · subst hgf; rw [hr] at hgr; cases hgr
        · exact ⟨g, hgrest, hgr⟩
      obtain ⟨g, hg, hgr, herr, hlog⟩ :=
        ih (fun g hg => hb g (List.mem_cons_of_mem f hg)) hexr
      rw [hrfs]
      exact ⟨g, List.mem_cons_of_mem f hg, hgr, herr,
        List.mem_cons_of_mem _ (List.mem_append_right _ hlog)⟩
    · have herrsome : (if f.raises && (cfg.ABORT_ON_ERROR || cfg.TEST_MODE_FAIL)
          then some (Err.consumerError f) else none) =
          some (Err.consumerError f) := by
        rw [hr, ha]
        simp
      rw [herrsome] at heq
      have hrfs : runFuncs cfg (f :: rest) args rv kwargs =
          (Event.call f args kw ::
            (if f.raises = true then [Event.logError (fname f)] else []),
           some (Err.consumerError f)) := by
        simp [runFuncs, heq]
      rw [hrfs]
      refine ⟨f, List.mem_cons_self f rest, hr, rfl, ?_⟩
      apply List.mem_cons_of_mem
      rw [hr]
      simp

theorem runSideEffects_def (cfg : Settings) (w : World) (label : String)
    (args : List Val) (rv : Val) (kwargs : List (String × Val)) :
    runSideEffects cfg w label args rv kwargs =
      match tryBindAll (lookupKey w.registry label) args rv kwargs with
      | some f =>
        ⟨{ w with registry := (getItem w.registry label).2 }, [],
         some (Err.signatureMismatch f)⟩
      | none =>
        if w.suppress || cfg.TEST_MODE then
          ⟨sendSuppressed { w with registry := (getItem w.registry label).2 } label,
           [Event.notify label], none⟩
        else
          ⟨{ w with registry := (getItem w.registry label).2 },
           (runSideEffectsBody cfg label (lookupKey w.registry label) args rv kwargs).1,
           (runSideEffectsBody cfg label (lookupKey w.registry label) args rv kwargs).2⟩ := by
  simp only [runSideEffects]
  rw [getItem_fst]

theorem dispatch_mismatch (cfg : Settings) (w : World) (label : String)
    (args : List Val) (rv : Val) (kwargs : List (String × Val))
    (hex : ∃ f ∈ lookupKey w.registry label, bindsEither f args rv kwargs = false) :
    (runSideEffects cfg w label args rv kwargs).trace = [] ∧
    ∃ g ∈ lookupKey w.registry label, bindsEither g args rv kwargs = false ∧
      (runSideEffects cfg w label args rv kwargs).err =
        some (Err.signatureMismatch g) := by
  obtain ⟨g, hfind, hg, hgb⟩ := tryBindAll_some_of_failing _ args rv kwargs hex
  rw [runSideEffects_def, hfind]
  exact ⟨rfl, g, hg, hgb, rfl⟩

/-! Theorems settling the claims. -/

/-- C1: while suppression is active (the registry's suppress flag, or
TEST_MODE), a call to run_side_effects invokes no registered consumer
function; and — provided the up-front signature validation passes — the call
sends exactly one suppressed-side-effect notification carrying the label,
appending the label once to the events list of every subscribed listener. -/
theorem claim_C1 (cfg : Settings) (w : World) (label : String) (args : List Val)
    (rv : Val) (kwargs : List (String × Val))
    (hs : w.suppress = true ∨ cfg.TEST_MODE = true) :
    (∀ f a k, Event.call f a k ∉ (runSideEffects cfg w label args rv kwargs).trace) ∧
    ((∀ f ∈ lookupKey w.registry label, bindsEither f args rv kwargs = true) →
      (runSideEffects cfg w label args rv kwargs).trace = [Event.notify label] ∧
      (runSideEffects cfg w label args rv kwargs).err = none ∧
      ∀ cmId, (w.listeners.any (fun l => l.2 == cmId)) = true →
        (w.cmEvents.any (fun p => p.1 == cmId)) = true →
        eventsOf (runSideEffects cfg w label args rv kwargs).world cmId =
          eventsOf w cmId ++ [label]) := by
  have hsup : (w.suppress || cfg.TEST_MODE) = true := by
    rcases hs with h | h <;> simp [h]
  rw [runSideEffects_def]
  cases hfind : tryBindAll (lookupKey w.registry label) args rv kwargs with
  | some g =>
    constructor
    · intro f a k hmem
      cases hmem
    · intro hall
      rw [(tryBindAll_eq_none_iff _ _ _ _).mpr hall] at hfind
      cases hfind
  | none =>
    rw [if_pos hsup]
    constructor
    · intro f a k hmem
      exact Event.noConfusion (List.mem_singleton.mp hmem)
    · intro _
      refine ⟨rfl, rfl, ?_⟩
      intro cmId hconn hmem
      exact eventsOf_sendSuppressed
        { w with registry := (getItem w.registry label).2 } label cmId hconn hmem

/-- C8: every call to run_side_effects — suppressed or not — validates
signature binding for every consumer registered for the label before any
execution or suppression notification: if some consumer binds neither with
nor without return_value, the call raises SignatureMismatch for such a
consumer and the trace is empty. -/
theorem claim_C8 (cfg : Settings) (w : World) (label : String) (args : List Val)
    (rv : Val) (kwargs : List (String × Val))
    (hex : ∃ f ∈ lookupKey w.registry label, bindsEither f args rv kwargs = false) :
    (runSideEffects cfg w label args rv kwargs).trace = [] ∧
    ∃ g ∈ lookupKey w.registry label, bindsEither g args rv kwargs = false ∧
      (runSideEffects cfg w label args rv kwargs).err =
        some (Err.signatureMismatch g) :=
  dispatch_mismatch cfg w label args rv kwargs hex

/-- C9 counterexample: dispatching a label with zero registered consumers is
not observationally state-preserving — the defaultdict lookup inserts the
label as a new key of the registry mapping, so the mapping (and e.g. the
by_label projection) changes. -/
theorem claim_C9_counterexample :
    lookupKey ([] : RegistryMap) "x" = [] ∧
    (runSideEffects ⟨false, false, false⟩ ⟨[], false, [], []⟩ "x" [] Val.vnone
        []).world.registry ≠ ([] : RegistryMap) ∧
    byLabel (runSideEffects ⟨false, false, false⟩ ⟨[], false, [], []⟩ "x" []
        Val.vnone []).world.registry "x" ≠ byLabel ([] : RegistryMap) "x" := by
  decide

/-- C9 amended: for a label with zero registered consumers (and
TEST_MODE_FAIL unset), run_side_effects invokes no function and does not
raise; the consumer list of every label is unchanged as an observation,
although the missing label key is inserted into the mapping with an empty
list. -/
theorem claim_C9 (cfg : Settings) (w : World) (label : String) (args : List Val)
    (rv : Val) (kwargs : List (String × Val))
    (hempty : lookupKey w.registry label = [])
    (htmf : cfg.TEST_MODE_FAIL = false) :
    (runSideEffects cfg w label args rv kwargs).err = none ∧
    (∀ f a k, Event.call f a k ∉ (runSideEffects cfg w label args rv kwargs).trace) ∧
    (∀ l, lookupKey (runSideEffects cfg w label args rv kwargs).world.registry l =
      lookupKey w.registry l) := by
  have hfind : tryBindAll (lookupKey w.registry label) args rv kwargs = none := by
    rw [hempty]
    rfl
  rw [runSideEffects_def, hfind]
  by_cases hsup : (w.suppress || cfg.TEST_MODE) = true
  · rw [if_pos hsup]
    refine ⟨rfl, ?_, ?_⟩
    · intro f a k hmem
      exact Event.noConfusion (List.mem_singleton.mp hmem)
    · intro l
      show lookupKey (getItem w.registry label).2 l = lookupKey w.registry l
      exact lookupKey_getItem_snd w.registry label l
  · rw [if_neg hsup]
    have hbody : runSideEffectsBody cfg label (lookupKey w.registry label) args
        rv kwargs = ([], none) := by
      rw [hempty]
      unfold runSideEffectsBody
      rw [htmf]
      rfl
    rw [hbody]
    refine ⟨rfl, ?_, ?_⟩
    · intro f a k hmem
      cases hmem
    · intro l
      exact lookupKey_getItem_snd w.registry label l

/-- C2: dispatch binds each registered consumer in two passes — first with
return_value as a keyword, then without — and, when not suppressed and with
no raising consumers, invokes each consumer in registration order with the
first argument set that binds; if some consumer binds in neither pass, the
call raises SignatureMismatch for such a consumer and no consumer registered
for the label is invoked. -/
theorem claim_C2 (cfg : Settings) (w : World) (label : String) (args : List Val)
    (rv : Val) (kwargs : List (String × Val))
    (hsup : w.suppress = false) (htm : cfg.TEST_MODE = false)
    (htmf : cfg.TEST_MODE_FAIL = false)
    (hraise : ∀ f ∈ lookupKey w.registry label, f.raises = false) :
    ((∀ f ∈ lookupKey w.registry label, bindsEither f args rv kwargs = true) →
      (runSideEffects cfg w label args rv kwargs).err = none ∧
      (runSideEffects cfg w label args rv kwargs).trace =
        (lookupKey w.registry label).map (fun f =>
          if try_bind f args (("return_value", rv) :: kwargs)
          then Event.call f args (("return_value", rv) :: kwargs)
          else Event.call f args kwargs)) ∧
    ((∃ f ∈ lookupKey w.registry label, bindsEither f args rv kwargs = false) →
      (runSideEffects cfg w label args rv kwargs).trace = [] ∧
      ∃ g ∈ lookupKey w.registry label, bindsEither g args rv kwargs = false ∧
        (runSideEffects cfg w label args rv kwargs).err =
          some (Err.signatureMismatch g)) := by
  constructor
  · intro hall
    rw [runSideEffects_def, (tryBindAll_eq_none_iff _ _ _ _).mpr hall]
    rw [if_neg (by rw [hsup, htm]; simp)]
    have hbody : runSideEffectsBody cfg label (lookupKey w.registry label) args
        rv kwargs =
        ((lookupKey w.registry label).map (fun f =>
          if try_bind f args (("return_value", rv) :: kwargs)
          then Event.call f args (("return_value", rv) :: kwargs)
          else Event.call f args kwargs), none) := by
      unfold runSideEffectsBody
      rw [htmf]
      simpa using runFuncs_ok cfg (lookupKey w.registry label) args rv kwargs
        hall hraise
    rw [hbody]
    exact ⟨rfl, rfl⟩
  · intro hex
    exact dispatch_mismatch cfg w label args rv kwargs hex

/-- C4: when a consumer raises a non-SignatureMismatch exception during an
unsuppressed dispatch whose consumers all bind, the error is logged with the
consumer's qualified name; with ABORT_ON_ERROR disabled the remaining
consumers still run and the call completes without raising, and the
exception is re-raised (as the call's error) only with ABORT_ON_ERROR
enabled. -/
theorem claim_C4 (cfg : Settings) (w : World) (label : String) (args : List Val)
    (rv : Val) (kwargs : List (String × Val))
    (hsup : w.suppress = false) (htm : cfg.TEST_MODE = false)
    (htmf : cfg.TEST_MODE_FAIL = false)
    (hball : ∀ f ∈ lookupKey w.registry label, bindsEither f args rv kwargs = true) :
    (cfg.ABORT_ON_ERROR = false →
      (runSideEffects cfg w label args rv kwargs).err = none ∧
      ∀ f ∈ lookupKey w.registry label,
        (∃ kw, Event.call f args kw ∈ (runSideEffects cfg w label args rv kwargs).trace) ∧
        (f.raises = true →
          Event.logError (fname f) ∈ (runSideEffects cfg w label args rv kwargs).trace)) ∧
    (cfg.ABORT_ON_ERROR = true →
      (∃ f ∈ lookupKey w.registry label, f.raises = true) →
      ∃ f ∈ lookupKey w.registry label, f.raises = true ∧
        (runSideEffects cfg w label args rv kwargs).err =
          some (Err.consumerError f) ∧
        Event.logError (fname f) ∈ (runSideEffects cfg w label args rv kwargs).trace) := by
  rw [runSideEffects_def, (tryBindAll_eq_none_iff _ _ _ _).mpr hball]
  rw [if_neg (by rw [hsup, htm]; simp)]
  have hbody : runSideEffectsBody cfg label (lookupKey w.registry label) args rv
      kwargs = runFuncs cfg (lookupKey w.registry label) args rv kwargs := by
    unfold runSideEffectsBody
    rw [htmf]
    simp
  rw [hbody]
  constructor
  · intro ha
    exact runFuncs_no_abort cfg (lookupKey w.registry label) args rv kwargs ha
      htmf hball
  · intro ha hex
    exact runFuncs_abort cfg (lookupKey w.registry label) args rv kwargs ha
      hball hex

/-- C5: the has_side_effects wrapper invokes the wrapped function, calls
run_side_effects with the original arguments plus the return value exactly
when the run-on-exit predicate accepts the result, and returns the original
result (propagating the dispatch exception if one is raised); the default
predicate http_response_check rejects exactly HTTP responses with a status
code in 400..599. -/
theorem claim_C5 (cfg : Settings) (w : World) (label : String)
    (runOnExit : Val → Bool) (producer : List Val → List (String × Val) → Val)
    (args : List Val) (kwargs : List (String × Val)) :
    ((runOnExit (producer args kwargs) = false →
      hasSideEffectsInner cfg w label runOnExit producer args kwargs =
        (w, [], Except.ok (producer args kwargs))) ∧
     (runOnExit (producer args kwargs) = true →
      (hasSideEffectsInner cfg w label runOnExit producer args kwargs).1 =
        (runSideEffects cfg w label args (producer args kwargs) kwargs).world ∧
      (hasSideEffectsInner cfg w label runOnExit producer args kwargs).2.1 =
        (runSideEffects cfg w label args (producer args kwargs) kwargs).trace ∧
      ((runSideEffects cfg w label args (producer args kwargs) kwargs).err = none →
        (hasSideEffectsInner cfg w label runOnExit producer args kwargs).2.2 =
          Except.ok (producer args kwargs)) ∧
      (∀ e, (runSideEffects cfg w label args (producer args kwargs) kwargs).err =
          some e →
        (hasSideEffectsInner cfg w label runOnExit producer args kwargs).2.2 =
          Except.error e))) ∧
    (∀ v, http_response_check v = false ↔
      ∃ c, v = Val.vhttp c ∧ 400 ≤ c ∧ c ≤ 599) := by
  refine ⟨⟨?_, ?_⟩, ?_⟩
  · intro h
    unfold hasSideEffectsInner
    rw [if_neg (by rw [h]; simp)]
  · intro h
    unfold hasSideEffectsInner
    rw [if_pos h]
    refine ⟨rfl, rfl, ?_, ?_⟩
    · intro herr
      simp only [herr]
    · intro e herr
      simp only [herr]
  · intro v
    cases v with
    | vhttp c =>
      simp only [http_response_check, Val.vhttp.injEq]
      constructor
      · intro hb
        refine ⟨c, rfl, ?_⟩
        have : (400 ≤ c && c < 600) = true := by
          cases hcase : (400 ≤ c && (c : Int) < 600)
          · rw [hcase] at hb
            cases hb
          · rfl
        rcases Bool.and_eq_true_iff.mp this with ⟨h1, h2⟩
        have h1i : (400 : Int) ≤ c := by exact_mod_cast of_decide_eq_true h1
        have h2i : (c : Int) < 600 := by exact_mod_cast of_decide_eq_true h2
        omega
      · rintro ⟨c2, hc2, h1, h2⟩
        rw [← hc2] at h1 h2
        have h1b : ((400 : Int) ≤ c : Bool) = true := decide_eq_true (by omega)
        have h2b : ((c : Int) < 600 : Bool) = true := decide_eq_true (by omega)
        rw [h1b, h2b]
        rfl
    | vint i => simp [http_response_check]
    | vstr s => simp [http_response_check]
    | vnone => simp [http_response_check]

theorem find?_eq_none_of_any_false {α : Type} (l : List α) (p : α → Bool)
    (h : l.any p = false) : l.find? p = none := by
  rw [List.find?_eq_none]
  intro x hx hpx
  have h2 := List.any_eq_true.mpr ⟨x, hx, hpx⟩
  rw [h2] at h
  cases h

theorem any_filter_not {α : Type} (l : List α) (p : α → Bool) :
    (l.filter (fun x => !(p x))).any p = false := by
  induction l with
  | nil => rfl
  | cons x rest ih =>
    by_cases hx : p x = true
    · simp [List.filter_cons, hx, ih]
    · have hx2 : p x = false := by simpa using hx
      simp [List.filter_cons, hx2, ih]

theorem any_map_key_preserving (l : List (Nat × List String))
    (g : Nat × List String → Nat × List String) (hg : ∀ p, (g p).1 = p.1)
    (c : Nat) :
    ((l.map g).any (fun p => p.1 == c)) = (l.any (fun p => p.1 == c)) := by
  induction l with
  | nil => rfl
  | cons p rest ih => simp [List.any_cons, hg p, ih]

theorem registerSideEffect_of_mem {r : RegistryMap} {label : String} {f : PyFunc}
    (hk : hasKey r label = true)
    (hmem : memById (lookupKey r label) f = true) :
    registerSideEffect r label f = r := by
  unfold registerSideEffect
  rw [getItem_of_hasKey hk]
  simp [hmem]

/-- C6 counterexample: register_side_effect deduplicates by function object
identity, not qualified name — registering a second, distinct function object
with the same qualified name is not a no-op: it appends a second entry. -/
theorem claim_C6_counterexample :
    fname (⟨1, "m", "f", [], false⟩ : PyFunc) =
      fname (⟨2, "m", "f", [], false⟩ : PyFunc) ∧
    lookupKey (registerSideEffect
        (registerSideEffect [] "foo" ⟨1, "m", "f", [], false⟩) "foo"
        ⟨2, "m", "f", [], false⟩) "foo" =
      [⟨1, "m", "f", [], false⟩, ⟨2, "m", "f", [], false⟩] ∧
    registerSideEffect (registerSideEffect [] "foo" ⟨1, "m", "f", [], false⟩)
        "foo" ⟨2, "m", "f", [], false⟩ ≠
      registerSideEffect [] "foo" ⟨1, "m", "f", [], false⟩ := by
  decide

/-- C6 amended: registration is idempotent on the same function object and
never raises — registering the same (label, consumer object) pair twice
yields one entry and leaves the registry unchanged; the no-op check compares
function objects (identity), not qualified names, and otherwise the consumer
is appended to the label's list, preserving FIFO order. -/
theorem claim_C6 (r : RegistryMap) (label : String) (f : PyFunc) :
    registerSideEffect (registerSideEffect r label f) label f =
      registerSideEffect r label f ∧
    (memById (lookupKey r label) f = true →
      lookupKey (registerSideEffect r label f) label = lookupKey r label) ∧
    (memById (lookupKey r label) f = false →
      lookupKey (registerSideEffect r label f) label =
        lookupKey r label ++ [f]) := by
  refine ⟨?_, ?_, ?_⟩
  · have hk := hasKey_registerSideEffect r label f
    have hmem : memById (lookupKey (registerSideEffect r label f) label) f
        = true := by
      rw [lookupKey_registerSideEffect]
      by_cases h : memById (lookupKey r label) f = true
      · rw [if_pos h]
        exact h
      · have h0 : memById (lookupKey r label) f = false := by simpa using h
        rw [if_neg (by rw [h0]; simp)]
        unfold memById
        rw [List.any_append]
        simp [memById]
    exact registerSideEffect_of_mem hk hmem
  · intro h
    rw [lookupKey_registerSideEffect, if_pos h]
  · intro h
    rw [lookupKey_registerSideEffect, if_neg (by rw [h]; simp)]

/-- C10: contains compares functions by fully-qualified name while
registration deduplicates by function object identity — once f is registered
for a label, contains reports any g with the same qualified name as
registered even though only f was added, and registering g still appends a
new entry. -/
theorem claim_C10 (r : RegistryMap) (label : String) (f g : PyFunc)
    (hname : fname f = fname g) (hid : f.id ≠ g.id)
    (hf : memById (lookupKey r label) f = false)
    (hg : memById (lookupKey r label) g = false) :
    (Registry.contains (registerSideEffect r label f) label g).1 = true ∧
    lookupKey (registerSideEffect r label f) label = lookupKey r label ++ [f] ∧
    lookupKey (registerSideEffect (registerSideEffect r label f) label g) label =
      lookupKey r label ++ [f, g] := by
  have hpart2 : lookupKey (registerSideEffect r label f) label =
      lookupKey r label ++ [f] := by
    rw [lookupKey_registerSideEffect, if_neg (by rw [hf]; simp)]
  refine ⟨?_, hpart2, ?_⟩
  · unfold Registry.contains
    rw [getItem_fst, hpart2, ← hname]
    simp
  · have hmemg : memById (lookupKey (registerSideEffect r label f) label) g
        = false := by
      rw [hpart2]
      unfold memById
      rw [List.any_append]
      unfold memById at hg
      rw [hg]
      simp
      intro hcontra
      exact absurd hcontra hid
    rw [lookupKey_registerSideEffect, if_neg (by rw [hmemg]; simp), hpart2,
      List.append_assoc]
    rfl

theorem suppressed_dispatch_eq (cfg : Settings) (w : World) (label : String)
    (args : List Val) (rv : Val) (kwargs : List (String × Val))
    (hsup : w.suppress = true)
    (hbind : ∀ f ∈ lookupKey w.registry label, bindsEither f args rv kwargs = true) :
    runSideEffects cfg w label args rv kwargs =
      ⟨sendSuppressed { w with registry := (getItem w.registry label).2 } label,
       [Event.notify label], none⟩ := by
  rw [runSideEffects_def, (tryBindAll_eq_none_iff _ _ _ _).mpr hbind]
  rw [if_pos (by rw [hsup]; simp)]


theorem suppressed_step (cfg : Settings) (x : World) (label : String)
    (args : List Val) (rv : Val) (kwargs : List (String × Val))
    (hsup : x.suppress = true)
    (hbind : ∀ f ∈ lookupKey x.registry label, bindsEither f args rv kwargs = true) :
    (runSideEffects cfg x label args rv kwargs).trace = [Event.notify label] ∧
    (runSideEffects cfg x label args rv kwargs).err = none ∧
    (runSideEffects cfg x label args rv kwargs).world.suppress = true ∧
    (runSideEffects cfg x label args rv kwargs).world.listeners = x.listeners ∧
    (∀ l, lookupKey (runSideEffects cfg x label args rv kwargs).world.registry l
      = lookupKey x.registry l) ∧
    (∀ c, ((runSideEffects cfg x label args rv kwargs).world.cmEvents.any
        (fun p => p.1 == c)) = (x.cmEvents.any (fun p => p.1 == c))) ∧
    (∀ c, (x.listeners.any (fun l => l.2 == c)) = true →
      (x.cmEvents.any (fun p => p.1 == c)) = true →
      eventsOf (runSideEffects cfg x label args rv kwargs).world c =
        eventsOf x c ++ [label]) := by
  rw [suppressed_dispatch_eq cfg x label args rv kwargs hsup hbind]
  refine ⟨rfl, rfl, hsup, rfl, ?_, ?_, ?_⟩
  · intro l
    exact lookupKey_getItem_snd x.registry label l
  · intro c
    unfold sendSuppressed
    exact any_map_key_preserving _ _ (fun p => by split <;> rfl) c
  · intro c hconn hmem
    exact eventsOf_sendSuppressed _ label c hconn hmem

/-- C7 counterexample: the suppressed-event listener is not removed on scope
exit — entering a disable_side_effects scope on a fresh world and leaving it
(body raises nothing) leaves the receiver, stored under dispatch_uid
"suppress", still connected, because __exit__ calls disconnect(on_event)
without the uid and Django's lookup key derived from the receiver matches no
stored entry. -/
theorem claim_C7_counterexample :
    ((withDisableSideEffects ⟨[("e", [⟨3, "m", "h", [], false⟩])], false, [], []⟩
      5 (fun w1 => (w1, [], none))).1.listeners.any (fun l => l.2 == 5)) = true ∧
    (withDisableSideEffects ⟨[("e", [⟨3, "m", "h", [], false⟩])], false, [], []⟩
      5 (fun w1 => (w1, [], none))).1.listeners =
      [(LookupKey.uid "suppress", 5)] := by
  decide

/-- C7 amended: the disable_side_effects scope yields a list that
accumulates each suppressed dispatch label in call order — two dispatches of
label e with no consumer executed yield the list containing e twice — and on
scope exit, including when the wrapped body ends in a raised exception
(arbitrary body), the suppression flag is restored to false; the
suppressed-event listener, however, is not removed: it was connected under
dispatch_uid "suppress" and __exit__ disconnects by receiver without the
uid, which matches no stored lookup key, so the entry stays connected. -/
theorem claim_C7 (cfg : Settings) (w : World) (cmId : Nat)
    (body : World → World × List Event × Option Err)
    (hfresh : (w.cmEvents.any (fun p => p.1 == cmId)) = false)
    (hnouid : (w.listeners.any (fun l => l.1 == LookupKey.uid "suppress")) = false)
    (hbind : ∀ f ∈ lookupKey w.registry "e", bindsEither f [] Val.vnone [] = true) :
    ((withDisableSideEffects w cmId body).1.suppress = false) ∧
    ((withDisableSideEffects w cmId (dispatchTwice cfg "e")).2.1 = ["e", "e"] ∧
     (∀ f a k, Event.call f a k ∉
       (withDisableSideEffects w cmId (dispatchTwice cfg "e")).2.2.1) ∧
     (withDisableSideEffects w cmId (dispatchTwice cfg "e")).2.2.2 = none ∧
     (LookupKey.uid "suppress", cmId) ∈
       (withDisableSideEffects w cmId (dispatchTwice cfg "e")).1.listeners) := by
  have hw1listeners : (cmEnter w cmId).listeners =
      w.listeners ++ [(LookupKey.uid "suppress", cmId)] := by
    simp [cmEnter, signalConnect, hnouid]
  have hw1events : (cmEnter w cmId).cmEvents = w.cmEvents ++ [(cmId, [])] := by
    simp [cmEnter, signalConnect, hfresh]
    split <;> rfl
  have hw1reg : (cmEnter w cmId).registry = w.registry := by
    simp [cmEnter, signalConnect]
    split <;> rfl
  have hbind1 : ∀ f ∈ lookupKey (cmEnter w cmId).registry "e",
      bindsEither f [] Val.vnone [] = true := by
    rw [hw1reg]
    exact hbind
  have hconn : ((w.listeners ++ [(LookupKey.uid "suppress", cmId)]).any
      (fun l => l.2 == cmId)) = true := by
    rw [List.any_append]
    simp
  have hanyw1 : ((cmEnter w cmId).cmEvents.any (fun p => p.1 == cmId)) = true := by
    rw [hw1events, List.any_append]
    simp
  obtain ⟨ht1, he1, hsup1, hlis1, hreg1, hany1, hev1⟩ :=
    suppressed_step cfg (cmEnter w cmId) "e" [] Val.vnone [] rfl hbind1
  have hbind2 : ∀ f ∈ lookupKey
      (runSideEffects cfg (cmEnter w cmId) "e" [] Val.vnone []).world.registry "e",
      bindsEither f [] Val.vnone [] = true := by
    intro f hf
    apply hbind f
    rw [hreg1 "e", hw1reg] at hf
    exact hf
  obtain ⟨ht2, he2, hsup2, hlis2, hreg2, hany2, hev2⟩ :=
    suppressed_step cfg
      (runSideEffects cfg (cmEnter w cmId) "e" [] Val.vnone []).world "e" []
      Val.vnone [] hsup1 hbind2
  have hw1eventsOf : eventsOf (cmEnter w cmId) cmId = [] := by
    unfold eventsOf
    rw [hw1events, List.find?_append, find?_eq_none_of_any_false _ _ hfresh]
    simp
  have hev1c : eventsOf
      (runSideEffects cfg (cmEnter w cmId) "e" [] Val.vnone []).world cmId =
      ["e"] := by
    rw [hev1 cmId (by rw [hw1listeners]; exact hconn) hanyw1, hw1eventsOf]
    rfl
  have hev2c : eventsOf (runSideEffects cfg
      (runSideEffects cfg (cmEnter w cmId) "e" [] Val.vnone []).world "e" []
      Val.vnone []).world cmId = ["e", "e"] := by
    rw [hev2 cmId (by rw [hlis1, hw1listeners]; exact hconn)
      (by rw [hany1 cmId]; exact hanyw1), hev1c]
    rfl
  constructor
  · exact rfl
  · refine ⟨?_, ?_, ?_, ?_⟩
    · show eventsOf (cmExit (dispatchTwice cfg "e" (cmEnter w cmId)).1 cmId)
        cmId = ["e", "e"]
      show eventsOf (dispatchTwice cfg "e" (cmEnter w cmId)).1 cmId = ["e", "e"]
      unfold dispatchTwice
      exact hev2c
    · intro f a k hmem
      have htr : (withDisableSideEffects w cmId (dispatchTwice cfg "e")).2.2.1 =
          [Event.notify "e", Event.notify "e"] := by
        show (dispatchTwice cfg "e" (cmEnter w cmId)).2.1 =
          [Event.notify "e", Event.notify "e"]
        unfold dispatchTwice
        rw [ht1, ht2]
        rfl
      rw [htr] at hmem
      rcases List.mem_cons.mp hmem with h | h
      · exact Event.noConfusion h
      · exact Event.noConfusion (List.mem_singleton.mp h)
    · show (dispatchTwice cfg "e" (cmEnter w cmId)).2.2 = none
      unfold dispatchTwice
      exact he2
    · have hXlis : (dispatchTwice cfg "e" (cmEnter w cmId)).1.listeners =
          w.listeners ++ [(LookupKey.uid "suppress", cmId)] := by
        unfold dispatchTwice
        rw [hlis2, hlis1, hw1listeners]
      show (LookupKey.uid "suppress", cmId) ∈
        (cmExit (dispatchTwice cfg "e" (cmEnter w cmId)).1 cmId).listeners
      show (LookupKey.uid "suppress", cmId) ∈
        (dispatchTwice cfg "e" (cmEnter w cmId)).1.listeners.filter
          (fun l => !(l.1 == LookupKey.rid cmId))
      rw [List.mem_filter, hXlis]
      exact ⟨List.mem_append_right _ (List.mem_singleton_self _), rfl⟩

/-- C3: inside an active unit-of-work, a completing has_side_effects producer
registers the dispatch as a pending commit action and runs no consumer;
committing a unit-of-work with that single pending action performs exactly
the dispatch; rolling back discards the pending actions so the dispatch
never executes and no exception is raised; with no active unit-of-work the
dispatch executes immediately. -/
theorem claim_C3 (cfg : Settings) (w : World) (tx : TxState) (label : String)
    (runOnExit : Val → Bool) (producer : List Val → List (String × Val) → Val)
    (args : List Val) (kwargs : List (String × Val)) :
    ((tx.active = true → runOnExit (producer args kwargs) = true →
      hasSideEffectsTx cfg w tx label runOnExit producer args kwargs =
        (w, ⟨true, tx.pending ++ [⟨label, args, producer args kwargs, kwargs⟩]⟩,
         [], Except.ok (producer args kwargs))) ∧
     (∀ d : Deferred,
       (commitTx cfg w ⟨true, [d]⟩).1 =
         (runSideEffects cfg w d.label d.args d.rv d.kwargs).world ∧
       (commitTx cfg w ⟨true, [d]⟩).2.2.1 =
         (runSideEffects cfg w d.label d.args d.rv d.kwargs).trace ∧
       (commitTx cfg w ⟨true, [d]⟩).2.2.2 =
         (runSideEffects cfg w d.label d.args d.rv d.kwargs).err)) ∧
    ((∀ tx2 : TxState, rollbackTx tx2 = (⟨false, []⟩, [], none) ∧
       commitTx cfg w (rollbackTx tx2).1 = (w, ⟨false, []⟩, [], none)) ∧
     (tx.active = false → runOnExit (producer args kwargs) = true →
       (hasSideEffectsTx cfg w tx label runOnExit producer args kwargs).1 =
         (runSideEffects cfg w label args (producer args kwargs) kwargs).world ∧
       (hasSideEffectsTx cfg w tx label runOnExit producer args kwargs).2.1 = tx ∧
       (hasSideEffectsTx cfg w tx label runOnExit producer args kwargs).2.2.1 =
         (runSideEffects cfg w label args (producer args kwargs) kwargs).trace)) := by
  refine ⟨⟨?_, ?_⟩, ?_, ?_⟩
  · intro hact hrun
    obtain ⟨act, pend⟩ := tx
    have hact2 : act = true := hact
    subst hact2
    unfold hasSideEffectsTx runSideEffectsOnCommit
    rw [if_pos hrun]
    simp
  · intro d
    unfold commitTx flushPending
    cases herr : (runSideEffects cfg w d.label d.args d.rv d.kwargs).err with
    | some e => simp [herr]
    | none => simp [herr, flushPending]
  · intro tx2
    refine ⟨rfl, ?_⟩
    unfold commitTx flushPending rollbackTx
    rfl
  · intro hact hrun
    unfold hasSideEffectsTx runSideEffectsOnCommit
    rw [if_pos hrun, if_neg (by rw [hact]; simp)]
    exact ⟨rfl, rfl, rfl⟩

/-! Witnesses instantiating the claim theorems at concrete inputs. -/

theorem claim_C1_witness :
    (runSideEffects ⟨false, false, false⟩
      ⟨[("e", [⟨3, "m", "h", [], false⟩])], true,
       [(LookupKey.uid "suppress", 5)], [(5, [])]⟩
      "e" [] Val.vnone []).trace = [Event.notify "e"] ∧
    (runSideEffects ⟨false, false, false⟩
      ⟨[("e", [⟨3, "m", "h", [], false⟩])], true,
       [(LookupKey.uid "suppress", 5)], [(5, [])]⟩
      "e" [] Val.vnone []).err = none ∧
    eventsOf (runSideEffects ⟨false, false, false⟩
      ⟨[("e", [⟨3, "m", "h", [], false⟩])], true,
       [(LookupKey.uid "suppress", 5)], [(5, [])]⟩
      "e" [] Val.vnone []).world 5 = ["e"] := by
  have h := claim_C1 ⟨false, false, false⟩
    ⟨[("e", [⟨3, "m", "h", [], false⟩])], true,
     [(LookupKey.uid "suppress", 5)], [(5, [])]⟩
    "e" [] Val.vnone [] (Or.inl rfl)
  have h2 := h.2 (by decide)
  refine ⟨h2.1, h2.2.1, ?_⟩
  rw [h2.2.2 5 (by decide) (by decide)]
  decide

theorem claim_C2_witness :
    (runSideEffects ⟨false, false, false⟩
      ⟨[("x", [⟨9, "m", "f", [⟨"a", ParamKind.posOrKw, false⟩,
                ⟨"b", ParamKind.posOrKw, false⟩], false⟩,
               ⟨10, "m", "g", [⟨"a", ParamKind.posOrKw, false⟩,
                ⟨"b", ParamKind.posOrKw, false⟩,
                ⟨"return_value", ParamKind.posOrKw, false⟩], false⟩])],
       false, [], []⟩
      "x" [Val.vint 1, Val.vint 2] (Val.vint 9) []).err = none ∧
    (runSideEffects ⟨false, false, false⟩
      ⟨[("x", [⟨9, "m", "f", [⟨"a", ParamKind.posOrKw, false⟩,
                ⟨"b", ParamKind.posOrKw, false⟩], false⟩,
               ⟨10, "m", "g", [⟨"a", ParamKind.posOrKw, false⟩,
                ⟨"b", ParamKind.posOrKw, false⟩,
                ⟨"return_value", ParamKind.posOrKw, false⟩], false⟩])],
       false, [], []⟩
      "x" [Val.vint 1, Val.vint 2] (Val.vint 9) []).trace =
      [Event.call ⟨9, "m", "f", [⟨"a", ParamKind.posOrKw, false⟩,
         ⟨"b", ParamKind.posOrKw, false⟩], false⟩ [Val.vint 1, Val.vint 2] [],
       Event.call ⟨10, "m", "g", [⟨"a", ParamKind.posOrKw, false⟩,
         ⟨"b", ParamKind.posOrKw, false⟩,
         ⟨"return_value", ParamKind.posOrKw, false⟩], false⟩
         [Val.vint 1, Val.vint 2] [("return_value", Val.vint 9)]] := by
  have h := (claim_C2 ⟨false, false, false⟩
    ⟨[("x", [⟨9, "m", "f", [⟨"a", ParamKind.posOrKw, false⟩,
              ⟨"b", ParamKind.posOrKw, false⟩], false⟩,
             ⟨10, "m", "g", [⟨"a", ParamKind.posOrKw, false⟩,
              ⟨"b", ParamKind.posOrKw, false⟩,
              ⟨"return_value", ParamKind.posOrKw, false⟩], false⟩])],
     false, [], []⟩
    "x" [Val.vint 1, Val.vint 2] (Val.vint 9) [] rfl rfl rfl (by decide)).1
    (by decide)
  refine ⟨h.1, ?_⟩
  rw [h.2]
  decide

theorem claim_C3_witness :
    hasSideEffectsTx ⟨false, false, false⟩
      ⟨[("foo", [⟨3, "m", "h", [], false⟩])], false, [], []⟩ ⟨true, []⟩ "foo"
      (fun _ => true) (fun _ _ => Val.vint 7) [] [] =
      (⟨[("foo", [⟨3, "m", "h", [], false⟩])], false, [], []⟩,
       ⟨true, [⟨"foo", [], Val.vint 7, []⟩]⟩, [], Except.ok (Val.vint 7)) ∧
    (commitTx ⟨false, false, false⟩
      ⟨[("foo", [⟨3, "m", "h", [], false⟩])], false, [], []⟩
      ⟨true, [⟨"foo", [], Val.vint 7, []⟩]⟩).2.2.1 =
      [Event.call ⟨3, "m", "h", [], false⟩ [] []] ∧
    commitTx ⟨false, false, false⟩
      ⟨[("foo", [⟨3, "m", "h", [], false⟩])], false, [], []⟩
      (rollbackTx ⟨true, [⟨"foo", [], Val.vint 7, []⟩]⟩).1 =
      (⟨[("foo", [⟨3, "m", "h", [], false⟩])], false, [], []⟩,
       ⟨false, []⟩, [], none) := by
  have h := claim_C3 ⟨false, false, false⟩
    ⟨[("foo", [⟨3, "m", "h", [], false⟩])], false, [], []⟩ ⟨true, []⟩ "foo"
    (fun _ => true) (fun _ _ => Val.vint 7) [] []
  refine ⟨h.1.1 rfl rfl, ?_, (h.2.1 ⟨true, [⟨"foo", [], Val.vint 7, []⟩]⟩).2⟩
  rw [(h.1.2 ⟨"foo", [], Val.vint 7, []⟩).2.1]
  decide

theorem claim_C4_witness :
    (runSideEffects ⟨false, false, false⟩
      ⟨[("b", [⟨11, "m", "boom", [], true⟩])], false, [], []⟩
      "b" [] Val.vnone []).err = none ∧
    Event.logError (fname (⟨11, "m", "boom", [], true⟩ : PyFunc)) ∈
      (runSideEffects ⟨false, false, false⟩
        ⟨[("b", [⟨11, "m", "boom", [], true⟩])], false, [], []⟩
        "b" [] Val.vnone []).trace ∧
    (runSideEffects ⟨true, false, false⟩
      ⟨[("b", [⟨11, "m", "boom", [], true⟩])], false, [], []⟩
      "b" [] Val.vnone []).err =
      some (Err.consumerError ⟨11, "m", "boom", [], true⟩) := by
  have h1 := claim_C4 ⟨false, false, false⟩
    ⟨[("b", [⟨11, "m", "boom", [], true⟩])], false, [], []⟩
    "b" [] Val.vnone [] rfl rfl rfl (by decide)
  have hno := h1.1 rfl
  have h2 := claim_C4 ⟨true, false, false⟩
    ⟨[("b", [⟨11, "m", "boom", [], true⟩])], false, [], []⟩
    "b" [] Val.vnone [] rfl rfl rfl (by decide)
  obtain ⟨f, hf, hr, herr, hlog⟩ := h2.2 rfl
    ⟨⟨11, "m", "boom", [], true⟩, by decide, rfl⟩
  have hlk : lookupKey
      (⟨[("b", [⟨11, "m", "boom", [], true⟩])], false, [], []⟩ : World).registry
      "b" = [⟨11, "m", "boom", [], true⟩] := by decide
  rw [hlk] at hf
  have hfb := List.mem_singleton.mp hf
  rw [hfb] at herr
  exact ⟨hno.1, (hno.2 ⟨11, "m", "boom", [], true⟩ (by decide)).2 rfl, herr⟩

theorem claim_C5_witness :
    hasSideEffectsInner ⟨false, false, false⟩ ⟨[], false, [], []⟩ "lbl"
      http_response_check (fun _ _ => Val.vhttp 404) [] [] =
      (⟨[], false, [], []⟩, [], Except.ok (Val.vhttp 404)) ∧
    http_response_check (Val.vhttp 500) = false ∧
    http_response_check (Val.vint 0) = true := by
  have h := claim_C5 ⟨false, false, false⟩ ⟨[], false, [], []⟩ "lbl"
    http_response_check (fun _ _ => Val.vhttp 404) [] []
  refine ⟨h.1.1 (by decide), (h.2 (Val.vhttp 500)).mpr ⟨500, rfl, by decide,
    by decide⟩, by decide⟩

theorem claim_C6_witness :
    registerSideEffect
      (registerSideEffect [] "foo" ⟨1, "m", "f", [], false⟩) "foo"
      ⟨1, "m", "f", [], false⟩ =
      registerSideEffect [] "foo" ⟨1, "m", "f", [], false⟩ ∧
    lookupKey (registerSideEffect [] "foo" ⟨1, "m", "f", [], false⟩) "foo" =
      [⟨1, "m", "f", [], false⟩] := by
  have h := claim_C6 [] "foo" ⟨1, "m", "f", [], false⟩
  exact ⟨h.1, (h.2.2 (by decide)).trans (by decide)⟩

theorem claim_C7_witness :
    (withDisableSideEffects ⟨[("e", [⟨3, "m", "h", [], false⟩])], false, [], []⟩
      5 (dispatchTwice ⟨false, false, false⟩ "e")).2.1 = ["e", "e"] ∧
    (withDisableSideEffects ⟨[("e", [⟨3, "m", "h", [], false⟩])], false, [], []⟩
      5 (dispatchTwice ⟨false, false, false⟩ "e")).1.suppress = false ∧
    (withDisableSideEffects ⟨[("e", [⟨3, "m", "h", [], false⟩])], false, [], []⟩
      5 (dispatchTwice ⟨false, false, false⟩ "e")).2.2.2 = none ∧
    (LookupKey.uid "suppress", 5) ∈
      (withDisableSideEffects ⟨[("e", [⟨3, "m", "h", [], false⟩])], false, [], []⟩
        5 (dispatchTwice ⟨false, false, false⟩ "e")).1.listeners := by
  have h := claim_C7 ⟨false, false, false⟩
    ⟨[("e", [⟨3, "m", "h", [], false⟩])], false, [], []⟩ 5
    (dispatchTwice ⟨false, false, false⟩ "e") (by decide) (by decide) (by decide)
  exact ⟨h.2.1, h.1, h.2.2.2.1, h.2.2.2.2⟩

theorem claim_C8_witness :
    (runSideEffects ⟨false, false, false⟩
      ⟨[("e", [⟨3, "m", "h", [], false⟩])], true, [], []⟩
      "e" [Val.vint 1] Val.vnone []).trace = [] ∧
    (runSideEffects ⟨false, false, false⟩
      ⟨[("e", [⟨3, "m", "h", [], false⟩])], true, [], []⟩
      "e" [Val.vint 1] Val.vnone []).err =
      some (Err.signatureMismatch ⟨3, "m", "h", [], false⟩) := by
  have h := claim_C8 ⟨false, false, false⟩
    ⟨[("e", [⟨3, "m", "h", [], false⟩])], true, [], []⟩
    "e" [Val.vint 1] Val.vnone []
    ⟨⟨3, "m", "h", [], false⟩, by decide, by decide⟩
  obtain ⟨g, hg, _, herr⟩ := h.2
  have hlk : lookupKey
      (⟨[("e", [⟨3, "m", "h", [], false⟩])], true, [], []⟩ : World).registry
      "e" = [⟨3, "m", "h", [], false⟩] := by decide
  rw [hlk] at hg
  rw [List.mem_singleton.mp hg] at herr
  exact ⟨h.1, herr⟩

theorem claim_C9_witness :
    (runSideEffects ⟨false, false, false⟩ ⟨[], false, [], []⟩ "x" [] Val.vnone
      []).err = none ∧
    lookupKey (runSideEffects ⟨false, false, false⟩ ⟨[], false, [], []⟩ "x" []
      Val.vnone []).world.registry "x" = [] := by
  have h := claim_C9 ⟨false, false, false⟩ ⟨[], false, [], []⟩ "x" [] Val.vnone
    [] rfl rfl
  exact ⟨h.1, (h.2.2 "x").trans (by decide)⟩

theorem claim_C10_witness :
    (Registry.contains (registerSideEffect [] "x" ⟨1, "m", "f", [], false⟩)
      "x" ⟨2, "m", "f", [], false⟩).1 = true ∧
    lookupKey (registerSideEffect
      (registerSideEffect [] "x" ⟨1, "m", "f", [], false⟩) "x"
      ⟨2, "m", "f", [], false⟩) "x" =
      [⟨1, "m", "f", [], false⟩, ⟨2, "m", "f", [], false⟩] := by
  have h := claim_C10 [] "x" ⟨1, "m", "f", [], false⟩ ⟨2, "m", "f", [], false⟩
    rfl (by decide) (by decide) (by decide)
  exact ⟨h.1, h.2.2.trans (by decide)⟩

end SideEffects
